import Mathlib

set_option autoImplicit false

namespace JdeSync

/-- Scalar values that can appear in a JDE data-service row: the JavaScript
scalars `null`, string, number and boolean.  Numbers are modelled as integers;
none of the verified properties depends on fractional values. -/
inductive JSValue where
  | vnull
  | vstr (s : String)
  | vnum (n : Int)
  | vbool (b : Bool)
deriving DecidableEq

/-- Characters removed by the JavaScript `String.prototype.trim`: ASCII
whitespace, NBSP, the Unicode line separators and the BOM. -/
def jsWhitespace (c : Char) : Bool :=
  c == ' ' || c == '\t' || c == '\n' || c == '\r' || c == '\x0b' || c == '\x0c' ||
    c == ' ' || c == ' ' || c == ' ' || c == '﻿'

/-- Trimming on the character list: drop leading and trailing whitespace. -/
def jsTrimList (l : List Char) : List Char :=
  ((l.dropWhile jsWhitespace).reverse.dropWhile jsWhitespace).reverse

/-- Model of `s.trim()`. -/
def jsTrim (s : String) : String :=
  String.mk (jsTrimList s.data)

/-- The omission test shared by every enrichment site in the repository:
`if (value === null) return; if (typeof value === 'string' && value.trim() === '') return;`
(the two guard lines in `addressBook.ts`, `contactInfo`, `mailingAddress.ts`,
`vendors.ts` and `vendorsMaster.ts`). -/
def omitValue : JSValue → Bool
  | .vnull => true
  | .vstr s => jsTrim s == ""
  | _ => false

/-- Descriptive metadata attached to a field, as copied by each enrichment
site (`fieldName`, `itemDescription`, `itemLongName`,
`itemDataTypeDescription`, `itemSize`).  The four item fields keep the raw
cell values the Excel loaders store in them. -/
structure FieldDetail where
  fieldName : String
  itemDescription : JSValue
  itemLongName : JSValue
  itemDataTypeDescription : JSValue
  itemSize : JSValue
deriving DecidableEq

/-- One enriched field: `{ value, details }` where `details` is the looked-up
`FieldDetail` or `null`. -/
structure EnrichedField where
  value : JSValue
  details : Option FieldDetail
deriving DecidableEq

/-- A raw row is a JavaScript object: an ordered association of field keys to
values (`Object.keys` iteration order is insertion order). -/
abbrev RawRow := List (String × JSValue)

/-- A field dictionary as produced by the Excel loaders. -/
abbrev FieldDict := List (String × FieldDetail)

/-- An enriched row: ordered association of keys to enriched fields. -/
abbrev EnrichedRow := List (String × EnrichedField)

/-- JavaScript property read `obj[key]`: the value stored under `key`, or
`undefined` (modelled as `none`). -/
def getProp {β : Type} : List (String × β) → String → Option β
  | [], _ => none
  | (k, v) :: rest, key => if k = key then some v else getProp rest key

/-- JavaScript property write `obj[key] = val`: overwrite in place if the key
exists, otherwise append. -/
def setProp {β : Type} : List (String × β) → String → β → List (String × β)
  | [], key, val => [(key, val)]
  | (k, v) :: rest, key, val =>
      if k = key then (k, val) :: rest else (k, v) :: setProp rest key val

/-- The enrichment loop of `getAddressBookRecords`, `getContactInfoRecords`,
`getMailingAddressRecords` and `buildVendorsJson`: for each key of the record,
omit null and whitespace-only string values, otherwise emit
`{ value, details: fieldDetails[field] or null }` under the same key. -/
def enrichRecord (fieldDetails : FieldDict) (record : RawRow) : EnrichedRow :=
  record.filterMap fun p =>
    if omitValue p.2 then none
    else some (p.1, ⟨p.2, getProp fieldDetails p.1⟩)

/-- The `enrichRow` helper of `vendorsMaster.ts`: same omission test, but the
dictionary is consulted at the composite key `tableName_field`, and the
enriched row is keyed by that composite key as well. -/
def enrichRow (row : RawRow) (fieldDetails : FieldDict) (tableName : String) : EnrichedRow :=
  row.filterMap fun p =>
    if omitValue p.2 then none
    else some (tableName ++ "_" ++ p.1,
               ⟨p.2, getProp fieldDetails (tableName ++ "_" ++ p.1)⟩)

/-- One data-service query as assembled by the fetch modules: the logical
table in the URL path `/v2/dataservice/table/<table>` and the `$filter` and
`$limit` query parameters. -/
structure QueryRequest where
  table : String
  filter : String
  limit : String
deriving DecidableEq

/-- Outcome of one `axiosInstance.get` call: the rowset extracted from a
successful response, or a thrown error with its message. -/
inductive QueryResult where
  | ok (rows : List RawRow)
  | err (msg : String)
deriving DecidableEq

/-- The remote data service, abstracted as a mapping from requests to
outcomes. -/
abbrev Env := QueryRequest → QueryResult

/-- First-attempt request of the child-table fetchers:
`$filter = "AN8 EQ <addressNumber>"`, `$limit = '10'`. -/
def primaryChildReq (table addressNumber : String) : QueryRequest :=
  ⟨table, "AN8 EQ " ++ addressNumber, "10"⟩

/-- Retry request of the child-table fetchers: the key field qualified with
the table name, `$filter = "<table>.AN8 EQ <addressNumber>"`, `$limit = '10'`. -/
def fallbackChildReq (table addressNumber : String) : QueryRequest :=
  ⟨table, table ++ ".AN8 EQ " ++ addressNumber, "10"⟩

/-- Result shape returned by `getAddressBookRecords`, `getContactInfoRecords`
and `getMailingAddressRecords`: the raw rowset and the enriched rowset. -/
structure TableResult where
  raw : List RawRow
  enhanced : List EnrichedRow
deriving DecidableEq

/-- The nested try of the child-table fetchers restricted to the query calls:
attempt the simple filter; on error retry once with the table-qualified
filter; if that fails too the error escapes to the outer catch.  The second
component records the requests actually issued, in order.  In the source each
try block also performs the field-dictionary load and the enrichment after
the query; this abstraction treats that load as succeeding (its result is the
`fieldDetails` parameter of `fetchTableTrace`), and is used only where the
hypotheses make the load unreachable or its outcome irrelevant.  The full try
bodies, including a failing dictionary load, are modelled by
`fetchTableAttemptFull` and `fetchTableFull` below. -/
def fetchTableAttempts (env : Env) (table addressNumber : String) :
    Except String (List RawRow) × List QueryRequest :=
  match env (primaryChildReq table addressNumber) with
  | .ok rows => (.ok rows, [primaryChildReq table addressNumber])
  | .err _ =>
    match env (fallbackChildReq table addressNumber) with
    | .ok rows =>
        (.ok rows, [primaryChildReq table addressNumber, fallbackChildReq table addressNumber])
    | .err m =>
        (.error m, [primaryChildReq table addressNumber, fallbackChildReq table addressNumber])

/-- A child-table fetch as a whole, under the same abstraction as
`fetchTableAttempts` (dictionary load assumed to succeed with
`fieldDetails`): the two-attempt query, enrichment of each returned row, and
the outer catch that turns any remaining error into the empty result instead
of raising to the caller.  `fetchTableFull` below is the variant that keeps
the dictionary load inside the try blocks. -/
def fetchTableTrace (env : Env) (fieldDetails : FieldDict) (table addressNumber : String) :
    TableResult × List QueryRequest :=
  match fetchTableAttempts env table addressNumber with
  | (.ok rows, reqs) => (⟨rows, rows.map (enrichRecord fieldDetails)⟩, reqs)
  | (.error _, reqs) => (⟨[], []⟩, reqs)

/-- Model of `getAddressBookRecords` (table F0115). -/
def getAddressBookRecords (env : Env) (fieldDetails : FieldDict) (addressNumber : String) :
    TableResult × List QueryRequest :=
  fetchTableTrace env fieldDetails "F0115" addressNumber

/-- Model of `getContactInfoRecords` (table F0111). -/
def getContactInfoRecords (env : Env) (fieldDetails : FieldDict) (addressNumber : String) :
    TableResult × List QueryRequest :=
  fetchTableTrace env fieldDetails "F0111" addressNumber

/-- Model of `getMailingAddressRecords` (table F0116). -/
def getMailingAddressRecords (env : Env) (fieldDetails : FieldDict) (addressNumber : String) :
    TableResult × List QueryRequest :=
  fetchTableTrace env fieldDetails "F0116" addressNumber

/-- One full try-block body of a child-table fetcher, in source order: the
`axiosInstance.get` call, then the awaited field-dictionary load
(`loadF0115FieldDetails()` and friends, which can reject — see the loaders
below), then the pure enrichment loop.  A failure of either awaited step
escapes the try block as an error. -/
def fetchTableAttemptFull (queryResult : QueryResult)
    (dictLoad : Except String FieldDict) : Except String TableResult :=
  match queryResult with
  | .err m => .error m
  | .ok rows =>
    match dictLoad with
    | .error m => .error m
    | .ok fieldDetails => .ok ⟨rows, rows.map (enrichRecord fieldDetails)⟩

/-- A child-table fetch with the full try bodies: the inner try holds the
primary query, the dictionary load and the enrichment, so a rejected
dictionary load lands in the inner catch and triggers the fallback attempt
even when the primary query itself succeeded; the fallback attempt repeats
the dictionary load, and any error it leaves reaches the outer catch, which
returns the empty result.  `dictLoad` is the (deterministic) outcome of the
per-table loader within the run; the second component is the ordered request
trace. -/
def fetchTableFull (env : Env) (dictLoad : Except String FieldDict)
    (table addressNumber : String) : TableResult × List QueryRequest :=
  match fetchTableAttemptFull (env (primaryChildReq table addressNumber)) dictLoad with
  | .ok res => (res, [primaryChildReq table addressNumber])
  | .error _ =>
    match fetchTableAttemptFull (env (fallbackChildReq table addressNumber)) dictLoad with
    | .ok res =>
        (res, [primaryChildReq table addressNumber, fallbackChildReq table addressNumber])
    | .error _ =>
        (⟨[], []⟩, [primaryChildReq table addressNumber, fallbackChildReq table addressNumber])

/-- JavaScript `String(v)` on a defined scalar value. -/
def jsString : JSValue → String
  | .vnull => "null"
  | .vstr s => s
  | .vnum n => toString n
  | .vbool b => cond b "true" "false"

/-- The address-number extraction of `buildVendorsJson`:
`vendor['F0101_AN8']` kept as-is when it is a string, otherwise coerced with
`String(...)` (which yields `"undefined"` for a missing field and `"null"`
for a null one). -/
def parentKeyOf (vendor : RawRow) : String :=
  match getProp vendor "F0101_AN8" with
  | none => "undefined"
  | some v => jsString v

/-- The skip test of `buildVendorsJson`:
`!addressNumber || addressNumber === 'undefined' || addressNumber === 'null'`. -/
def invalidParentKey (addressNumber : String) : Bool :=
  addressNumber == "" || addressNumber == "undefined" || addressNumber == "null"

/-- One element of the `vendorsRaw` output collection of `buildVendorsJson`. -/
structure VendorEntryRaw where
  addressNumber : String
  vendor : RawRow
  contactInfo : List RawRow
  addressBook : List RawRow
  mailingAddress : List RawRow
deriving DecidableEq

/-- One element of the `vendorsEnhanced` output collection of
`buildVendorsJson`. -/
structure VendorEntryEnhanced where
  addressNumber : String
  vendor : EnrichedRow
  contactInfo : List EnrichedRow
  addressBook : List EnrichedRow
  mailingAddress : List EnrichedRow
deriving DecidableEq

/-- The primary-table request of `buildVendorsJson`:
`$filter = 'F0101.AT1 EQ V'`, `$limit = '5'`. -/
def primaryVendorReq : QueryRequest :=
  ⟨"F0101", "F0101.AT1 EQ V", "5"⟩

/-- The body of the per-vendor loop of `buildVendorsJson`: skip the vendor
when its address number is empty or a stringified undefined/null; otherwise
fetch the three child tables, and contribute one raw entry, one enhanced
entry (vendor fields enriched with the F0101 dictionary) and the issued
child requests. -/
def processVendor (env : Env)
    (f0101Fields f0111Fields f0115Fields f0116Fields : FieldDict) (vendor : RawRow) :
    List VendorEntryRaw × List VendorEntryEnhanced × List QueryRequest :=
  let addressNumber := parentKeyOf vendor
  if invalidParentKey addressNumber then ([], [], [])
  else
    let contactInfo := getContactInfoRecords env f0111Fields addressNumber
    let addressBook := getAddressBookRecords env f0115Fields addressNumber
    let mailingAddress := getMailingAddressRecords env f0116Fields addressNumber
    ([⟨addressNumber, vendor, contactInfo.1.raw, addressBook.1.raw, mailingAddress.1.raw⟩],
     [⟨addressNumber, enrichRecord f0101Fields vendor, contactInfo.1.enhanced,
       addressBook.1.enhanced, mailingAddress.1.enhanced⟩],
     contactInfo.2 ++ addressBook.2 ++ mailingAddress.2)

/-- The two output collections of `buildVendorsJson`, later serialized to
`vendors.json` and `vendors-enhanced.json`. -/
structure BuildOutput where
  vendorsRaw : List VendorEntryRaw
  vendorsEnhanced : List VendorEntryEnhanced
deriving DecidableEq

/-- Model of `buildVendorsJson`: fetch the primary F0101 table (no retry, no
catch, so a failure propagates to the caller before anything is written),
then run the per-vendor loop and collect both output collections.  The
second component is the full ordered trace of data-service requests issued. -/
def buildVendorsJson (env : Env)
    (f0101Fields f0111Fields f0115Fields f0116Fields : FieldDict) :
    Except String BuildOutput × List QueryRequest :=
  match env primaryVendorReq with
  | .err m => (.error m, [primaryVendorReq])
  | .ok vendorRowset =>
    let contribs :=
      vendorRowset.map (processVendor env f0101Fields f0111Fields f0115Fields f0116Fields)
    (.ok ⟨contribs.flatMap (fun c => c.1), contribs.flatMap (fun c => c.2.1)⟩,
     primaryVendorReq :: contribs.flatMap (fun c => c.2.2))

/-- Observable outcome of one run of `main` in `index.ts`: the process exit
code, the error-level terminal messages, and the batch output files written. -/
structure RunOutcome where
  exitCode : Nat
  errorMessages : List String
  filesWritten : List String
deriving DecidableEq

/-- Model of `main` in `index.ts`: a failed connection validation logs and
exits with code 1; otherwise `buildVendorsJson` runs inside a try/catch whose
catch only logs the error, after which `main` returns normally, so the
process exits with code 0 whether or not the batch succeeded.  The two batch
files are written only when `buildVendorsJson` completes. -/
def mainRun (validateOk : Bool) (env : Env)
    (f0101Fields f0111Fields f0115Fields f0116Fields : FieldDict) : RunOutcome :=
  if !validateOk then
    ⟨1, ["Connection validation failed. Exiting."], []⟩
  else
    match (buildVendorsJson env f0101Fields f0111Fields f0115Fields f0116Fields).1 with
    | .ok _ => ⟨0, [], ["vendors.json", "vendors-enhanced.json"]⟩
    | .error m => ⟨0, ["Error during batch vendor sync: " ++ m], []⟩

/-- A metadata worksheet after the header join performed by every loader:
each data row as an object keyed by the header-row strings. -/
abbrev SheetRows := List (List (String × JSValue))

/-- Coercion the F0116 loader applies to the table-name and alias cells: a
string stays, undefined and null become the empty string, and other scalars
go through `String(...)`. -/
def cellString (v : Option JSValue) : String :=
  match v with
  | none => ""
  | some .vnull => ""
  | some (.vstr s) => s
  | some (.vnum n) => toString n
  | some (.vbool b) => cond b "true" "false"

/-- JavaScript truthiness of a possibly-absent cell value, as used by the
`||` chains and the `if (!tableName || !alias) return` guards. -/
def truthyCell : Option JSValue → Bool
  | none => false
  | some .vnull => false
  | some (.vstr s) => !(s == "")
  | some (.vnum n) => !(n == 0)
  | some (.vbool b) => b

/-- JavaScript `a || b`: the first operand when truthy, otherwise the second. -/
def jsOr (a : Option JSValue) (b : JSValue) : JSValue :=
  match a with
  | some v => if truthyCell (some v) then v else b
  | none => b

/-- JavaScript `Number(v)` restricted to the integer fragment of the model:
`none` stands for NaN.  Strings are parsed as optionally-trimmed integer
literals, the empty or blank string giving 0. -/
def jsNumber : JSValue → Option Int
  | .vnull => some 0
  | .vbool b => some (cond b 1 0)
  | .vnum n => some n
  | .vstr s => if jsTrim s == "" then some 0 else (jsTrim s).toInt?

/-- The `safeString` helper of the F0116 loader: the primary cell if it is a
string, else `String(primary)` if it is defined and non-null, else the same
for the fallback cell, else the empty string. -/
def safeString (primary fallback : Option JSValue) : String :=
  match primary with
  | some (.vstr s) => s
  | some .vnull =>
      (match fallback with
       | some (.vstr s) => s
       | some .vnull => ""
       | some v => jsString v
       | none => "")
  | some v => jsString v
  | none =>
      match fallback with
      | some (.vstr s) => s
      | some .vnull => ""
      | some v => jsString v
      | none => ""

/-- The `safeNumber` helper of the F0116 loader: `Number(primary)` when the
primary cell is defined, non-null and numeric, else the same for the
fallback, else null (modelled as `none`). -/
def safeNumber (primary fallback : Option JSValue) : Option Int :=
  match primary with
  | some .vnull =>
      (match fallback with
       | some .vnull => none
       | some v => jsNumber v
       | none => none)
  | some v =>
      (match jsNumber v with
       | some n => some n
       | none =>
         match fallback with
         | some .vnull => none
         | some w => jsNumber w
         | none => none)
  | none =>
      match fallback with
      | some .vnull => none
      | some v => jsNumber v
      | none => none

/-- Row loop of `loadF0116FieldDetails`: compose the composite key from the
table-name and alias columns (skipping rows where either is missing), and
store the descriptor built with `safeString`/`safeNumber` under that key. -/
def buildF0116FieldMap (rows : SheetRows) : FieldDict :=
  rows.foldl
    (fun fieldMap rowObj =>
      let tableName := cellString (getProp rowObj "Table Name")
      let aliasDD := cellString (getProp rowObj "Alias DD Item")
      if tableName == "" || aliasDD == "" then fieldMap
      else
        let key := tableName ++ "_" ++ aliasDD
        setProp fieldMap key
          ⟨key,
           JSValue.vstr (safeString (getProp rowObj "DD Item Description")
             (getProp rowObj "Item Description")),
           JSValue.vstr (safeString (getProp rowObj "DD Item Long Name")
             (getProp rowObj "Item Long Name")),
           JSValue.vstr (safeString (getProp rowObj "DD Item Data Type Description")
             (getProp rowObj "Item Data Type Description")),
           (match safeNumber (getProp rowObj "DD Item Size") (getProp rowObj "Item Size") with
            | some n => JSValue.vnum n
            | none => JSValue.vnull)⟩)
    []

/-- Row loop of `loadF01151FieldDetails` (the `||`-chain variant in
`src/utils/f01151Excel.ts`): truthiness guard on the table-name and alias
cells, template-literal key, and `||` fallback chains for the descriptor
fields with default empty string (and null for the size). -/
def buildF01151FieldMap (rows : SheetRows) : FieldDict :=
  rows.foldl
    (fun fieldMap rowObj =>
      if !truthyCell (getProp rowObj "Table Name") ||
          !truthyCell (getProp rowObj "Alias DD Item") then fieldMap
      else
        let key := cellString (getProp rowObj "Table Name") ++ "_" ++
          cellString (getProp rowObj "Alias DD Item")
        setProp fieldMap key
          ⟨key,
           jsOr (getProp rowObj "DD Item Description")
             (jsOr (getProp rowObj "Item Description") (JSValue.vstr "")),
           jsOr (getProp rowObj "DD Item Long Name")
             (jsOr (getProp rowObj "Item Long Name") (JSValue.vstr "")),
           jsOr (getProp rowObj "DD Item Data Type Description")
             (jsOr (getProp rowObj "Item Data Type Description") (JSValue.vstr "")),
           jsOr (getProp rowObj "DD Item Size")
             (jsOr (getProp rowObj "Item Size") JSValue.vnull)⟩)
    []

/-- Row loop of `loadF0111FieldDetails`: same shape as the F01151 `||`
variant, except that the size defaults to 0. -/
def buildF0111FieldMap (rows : SheetRows) : FieldDict :=
  rows.foldl
    (fun fieldMap rowObj =>
      if !truthyCell (getProp rowObj "Table Name") ||
          !truthyCell (getProp rowObj "Alias DD Item") then fieldMap
      else
        let key := cellString (getProp rowObj "Table Name") ++ "_" ++
          cellString (getProp rowObj "Alias DD Item")
        setProp fieldMap key
          ⟨key,
           jsOr (getProp rowObj "DD Item Description")
             (jsOr (getProp rowObj "Item Description") (JSValue.vstr "")),
           jsOr (getProp rowObj "DD Item Long Name")
             (jsOr (getProp rowObj "Item Long Name") (JSValue.vstr "")),
           jsOr (getProp rowObj "DD Item Data Type Description")
             (jsOr (getProp rowObj "Item Data Type Description") (JSValue.vstr "")),
           jsOr (getProp rowObj "DD Item Size")
             (jsOr (getProp rowObj "Item Size") (JSValue.vnum 0))⟩)
    []

/-- Model of `loadF0116FieldDetails`: the loader calls
`workbook.xlsx.readFile` on the fixed path with no existence check, so an
absent file makes the returned promise reject (Node reports ENOENT) and the
error propagates to the caller. -/
def loadF0116FieldDetails (file : Option SheetRows) : Except String FieldDict :=
  match file with
  | none => .error "ENOENT"
  | some rows => .ok (buildF0116FieldMap rows)

/-- Model of `loadF01151FieldDetails`: the loader first checks
`fs.existsSync` and returns an empty field map when the file is absent. -/
def loadF01151FieldDetails (file : Option SheetRows) : Except String FieldDict :=
  match file with
  | none => .ok []
  | some rows => .ok (buildF01151FieldMap rows)

/-- Model of `loadF0111FieldDetails`: the loader first checks
`fs.existsSync` and returns an empty field map when the file is absent. -/
def loadF0111FieldDetails (file : Option SheetRows) : Except String FieldDict :=
  match file with
  | none => .ok []
  | some rows => .ok (buildF0111FieldMap rows)

/-- A remote service where every request succeeds with an empty rowset. -/
def envOkEmpty : Env := fun _ => .ok []

/-- A remote service where every request fails. -/
def envAllErr : Env := fun _ => .err "service unavailable"

/-- A remote service where every request succeeds with one single-field row. -/
def envOkOneRow : Env := fun _ => .ok [[("AN8", JSValue.vstr "4242")]]

/-- A remote service whose primary-table query returns one vendor row with an
empty address number. -/
def envOkInvalidVendor : Env := fun _ => .ok [[("F0101_AN8", JSValue.vstr "")]]

theorem jsTrimList_eq_nil_iff (l : List Char) :
    jsTrimList l = [] ↔ ∀ c ∈ l, jsWhitespace c := by
  unfold jsTrimList
  rw [List.reverse_eq_nil_iff, List.dropWhile_eq_nil_iff]
  constructor
  · intro h c hc
    rw [← List.takeWhile_append_dropWhile (p := jsWhitespace) (l := l)] at hc
    rcases List.mem_append.mp hc with h1 | h1
    · exact List.mem_takeWhile_imp h1
    · exact h c (List.mem_reverse.mpr h1)
  · intro h c hc
    exact h c ((List.dropWhile_sublist _).subset (List.mem_reverse.mp hc))

theorem omitValue_iff (v : JSValue) :
    omitValue v = true ↔
      v = JSValue.vnull ∨ ∃ s, v = JSValue.vstr s ∧ ∀ c ∈ s.data, jsWhitespace c := by
  cases v with
  | vnull => simp [omitValue]
  | vstr s =>
      simp only [omitValue, beq_iff_eq, jsTrim]
      constructor
      · intro h
        refine Or.inr ⟨s, rfl, ?_⟩
        have hdata : jsTrimList s.data = [] := by
          have h2 := congrArg String.data h
          simpa using h2
        exact (jsTrimList_eq_nil_iff s.data).mp hdata
      · intro h
        rcases h with h | ⟨t, ht, hall⟩
        · exact JSValue.noConfusion h
        · cases ht
          have hdata : jsTrimList s.data = [] := (jsTrimList_eq_nil_iff s.data).mpr hall
          rw [hdata]
  | vnum n => simp [omitValue]
  | vbool b => simp [omitValue]

theorem getProp_eq_none_of_not_mem {β : Type} (l : List (String × β)) (key : String)
    (h : key ∉ l.map Prod.fst) : getProp l key = none := by
  induction l with
  | nil => rfl
  | cons p rest ih =>
      simp only [List.map_cons, List.mem_cons, not_or] at h
      obtain ⟨h1, h2⟩ := h
      simp only [getProp]
      rw [if_neg (fun he => h1 he.symm)]
      exact ih h2

theorem enrichRecord_keys_subset (fieldDetails : FieldDict) (record : RawRow) :
    ∀ key ∈ (enrichRecord fieldDetails record).map Prod.fst, key ∈ record.map Prod.fst := by
  intro key hkey
  simp only [enrichRecord, List.mem_map] at hkey
  obtain ⟨q, hq, hfst⟩ := hkey
  rw [List.mem_filterMap] at hq
  obtain ⟨p, hp, hsome⟩ := hq
  by_cases hom : omitValue p.2
  · simp [hom] at hsome
  · simp only [hom, Bool.false_eq_true, if_false, Option.some.injEq] at hsome
    subst hsome
    exact hfst ▸ List.mem_map_of_mem Prod.fst hp

theorem getProp_enrichRecord (fieldDetails : FieldDict) (record : RawRow)
    (f : String) (v : JSValue)
    (hnd : (record.map Prod.fst).Nodup) (hv : getProp record f = some v) :
    getProp (enrichRecord fieldDetails record) f =
      if omitValue v then none else some ⟨v, getProp fieldDetails f⟩ := by
  induction record with
  | nil => cases hv
  | cons p rest ih =>
      obtain ⟨k, w⟩ := p
      simp only [List.map_cons, List.nodup_cons] at hnd
      obtain ⟨hk, hndrest⟩ := hnd
      simp only [getProp] at hv
      by_cases hkf : k = f
      · subst hkf
        rw [if_pos rfl] at hv
        injection hv with hvw
        subst hvw
        by_cases hom : omitValue w = true
        · simp only [enrichRecord, List.filterMap_cons, hom, if_true]
          apply getProp_eq_none_of_not_mem
          intro hmem
          exact hk (enrichRecord_keys_subset fieldDetails rest k hmem)
        · simp only [Bool.not_eq_true] at hom
          simp only [enrichRecord, List.filterMap_cons, hom, Bool.false_eq_true, if_false]
          simp [getProp, hom]
      · rw [if_neg hkf] at hv
        have hrec := ih hndrest hv
        by_cases hom : omitValue w = true
        · simp only [enrichRecord, List.filterMap_cons, hom, if_true]
          simp only [enrichRecord] at hrec
          exact hrec
        · simp only [Bool.not_eq_true] at hom
          simp only [enrichRecord, List.filterMap_cons, hom, Bool.false_eq_true, if_false]
          simp only [getProp, if_neg hkf]
          simp only [enrichRecord] at hrec
          exact hrec

theorem tableKey_inj (t a b : String) (h : t ++ "_" ++ a = t ++ "_" ++ b) : a = b := by
  have h2 := congrArg String.data h
  simp only [String.data_append] at h2
  exact String.ext (List.append_cancel_left h2)

theorem enrichRow_keys (fieldDetails : FieldDict) (row : RawRow) (tableName : String) :
    ∀ key ∈ (enrichRow row fieldDetails tableName).map Prod.fst,
      ∃ f ∈ row.map Prod.fst, key = tableName ++ "_" ++ f := by
  intro key hkey
  simp only [enrichRow, List.mem_map] at hkey
  obtain ⟨q, hq, hfst⟩ := hkey
  rw [List.mem_filterMap] at hq
  obtain ⟨p, hp, hsome⟩ := hq
  by_cases hom : omitValue p.2 = true
  · simp [hom] at hsome
  · simp only [hom, Bool.false_eq_true, if_false, Option.some.injEq] at hsome
    subst hsome
    exact ⟨p.1, List.mem_map_of_mem Prod.fst hp, hfst.symm⟩

theorem getProp_enrichRow (fieldDetails : FieldDict) (row : RawRow)
    (tableName f : String) (v : JSValue)
    (hnd : (row.map Prod.fst).Nodup) (hv : getProp row f = some v) :
    getProp (enrichRow row fieldDetails tableName) (tableName ++ "_" ++ f) =
      if omitValue v then none
      else some ⟨v, getProp fieldDetails (tableName ++ "_" ++ f)⟩ := by
  induction row with
  | nil => cases hv
  | cons p rest ih =>
      obtain ⟨k, w⟩ := p
      simp only [List.map_cons, List.nodup_cons] at hnd
      obtain ⟨hk, hndrest⟩ := hnd
      simp only [getProp] at hv
      by_cases hkf : k = f
      · subst hkf
        rw [if_pos rfl] at hv
        injection hv with hvw
        subst hvw
        by_cases hom : omitValue w = true
        · simp only [enrichRow, List.filterMap_cons, hom, if_true]
          apply getProp_eq_none_of_not_mem
          intro hmem
          obtain ⟨f0, hf0, heq⟩ := enrichRow_keys fieldDetails rest tableName _ hmem
          exact hk (tableKey_inj tableName k f0 heq ▸ hf0)
        · simp only [Bool.not_eq_true] at hom
          simp only [enrichRow, List.filterMap_cons, hom, Bool.false_eq_true, if_false]
          simp [getProp, hom]
      · rw [if_neg hkf] at hv
        have hrec := ih hndrest hv
        by_cases hom : omitValue w = true
        · simp only [enrichRow, List.filterMap_cons, hom, if_true]
          simp only [enrichRow] at hrec
          exact hrec
        · simp only [Bool.not_eq_true] at hom
          simp only [enrichRow, List.filterMap_cons, hom, Bool.false_eq_true, if_false]
          rw [getProp, if_neg (fun he => hkf (tableKey_inj tableName k f he))]
          simp only [enrichRow] at hrec
          exact hrec

/-- C1: for every raw row `r` (a JavaScript object, so with pairwise distinct
keys) and every field `f` of `r`, the enrichment loop used by the per-table
fetch modules and by `buildVendorsJson` drops `f` entirely when its value is
null or a whitespace-only string, and retains every other value (including
numbers such as 0 and booleans such as false) as an entry whose value is the
raw value. -/
theorem c1_omission_law (fieldDetails : FieldDict) (record : RawRow)
    (f : String) (v : JSValue)
    (hnd : (record.map Prod.fst).Nodup) (hv : getProp record f = some v) :
    ((v = JSValue.vnull ∨ ∃ s, v = JSValue.vstr s ∧ ∀ c ∈ s.data, jsWhitespace c) →
        getProp (enrichRecord fieldDetails record) f = none) ∧
    (¬(v = JSValue.vnull ∨ ∃ s, v = JSValue.vstr s ∧ ∀ c ∈ s.data, jsWhitespace c) →
        getProp (enrichRecord fieldDetails record) f =
          some ⟨v, getProp fieldDetails f⟩) := by
  have hmain := getProp_enrichRecord fieldDetails record f v hnd hv
  constructor
  · intro h
    rw [hmain, if_pos ((omitValue_iff v).mpr h)]
  · intro h
    have hom : omitValue v = false := by
      cases hb : omitValue v
      · rfl
      · exact absurd ((omitValue_iff v).mp hb) h
    rw [hmain, hom]
    simp

theorem c1_omission_law_witness :
    getProp (enrichRecord [] [("AN8", JSValue.vnum 0), ("DSC", JSValue.vstr "  ")]) "DSC" =
        none ∧
    getProp (enrichRecord [] [("AN8", JSValue.vnum 0), ("DSC", JSValue.vstr "  ")]) "AN8" =
        some ⟨JSValue.vnum 0, none⟩ := by
  constructor
  · exact (c1_omission_law [] [("AN8", JSValue.vnum 0), ("DSC", JSValue.vstr "  ")]
      "DSC" (JSValue.vstr "  ") (by decide) (by decide)).1
      (Or.inr ⟨"  ", rfl, by decide⟩)
  · exact (c1_omission_law [] [("AN8", JSValue.vnum 0), ("DSC", JSValue.vstr "  ")]
      "AN8" (JSValue.vnum 0) (by decide) (by decide)).2
      (by rintro (h | ⟨s, hs, hall⟩) <;> exact JSValue.noConfusion (by assumption))

/-- C2 counterexample: in `getAddressBookRecords` (and the other per-table
fetch modules) the dictionary is consulted at the bare field key, not at the
composite key `"<table>_<field>"`.  With table `F0115`, field `AN8` and a
dictionary containing exactly the composite key `F0115_AN8`, the retained
field comes back with `details = null` even though the dictionary contains
the composite key, refuting the claimed equivalence. -/
theorem c2_counterexample :
    getProp
        (enrichRecord
          ([("F0115_AN8", ⟨"F0115_AN8", JSValue.vstr "Address Number",
            JSValue.vstr "Address Number", JSValue.vstr "Numeric", JSValue.vnum 8⟩)] : FieldDict)
          [("AN8", JSValue.vstr "4242")])
        "AN8" =
      some ⟨JSValue.vstr "4242", none⟩ ∧
    (getProp
        ([("F0115_AN8", ⟨"F0115_AN8", JSValue.vstr "Address Number",
          JSValue.vstr "Address Number", JSValue.vstr "Numeric", JSValue.vnum 8⟩)] : FieldDict)
        ("F0115" ++ "_" ++ "AN8")).isSome = true := by
  constructor
  · rfl
  · rfl

/-- C2 amended: for every retained field `f` of a row with distinct keys, the
attached `details` is non-null exactly when the dictionary contains the
lookup key the code actually uses: the bare field key `f` in the per-table
fetch modules (`enrichRecord`), and the composite key `"<table>_<field>"` in
the `enrichRow` helper of `vendorsMaster.ts`. -/
theorem c2_attachment_amended (fieldDetails : FieldDict) (row : RawRow)
    (tableName f : String) (v : JSValue)
    (hnd : (row.map Prod.fst).Nodup) (hv : getProp row f = some v)
    (hret : omitValue v = false) :
    (∃ e, getProp (enrichRecord fieldDetails row) f = some e ∧
        (e.details ≠ none ↔ (getProp fieldDetails f).isSome = true)) ∧
    (∃ e, getProp (enrichRow row fieldDetails tableName) (tableName ++ "_" ++ f) = some e ∧
        (e.details ≠ none ↔ (getProp fieldDetails (tableName ++ "_" ++ f)).isSome = true)) := by
  constructor
  · refine ⟨⟨v, getProp fieldDetails f⟩, ?_, ?_⟩
    · rw [getProp_enrichRecord fieldDetails row f v hnd hv, hret]
      simp
    · cases h : getProp fieldDetails f <;> simp [h]
  · refine ⟨⟨v, getProp fieldDetails (tableName ++ "_" ++ f)⟩, ?_, ?_⟩
    · rw [getProp_enrichRow fieldDetails row tableName f v hnd hv, hret]
      simp
    · cases h : getProp fieldDetails (tableName ++ "_" ++ f) <;> simp [h]

theorem c2_attachment_amended_witness :
    (∃ e, getProp (enrichRecord [] [("AN8", JSValue.vstr "4242")]) "AN8" = some e ∧
        (e.details ≠ none ↔ (getProp ([] : FieldDict) "AN8").isSome = true)) ∧
    (∃ e, getProp (enrichRow [("AN8", JSValue.vstr "4242")] [] "F0115")
          ("F0115" ++ "_" ++ "AN8") = some e ∧
        (e.details ≠ none ↔ (getProp ([] : FieldDict) ("F0115" ++ "_" ++ "AN8")).isSome = true)) :=
  c2_attachment_amended [] [("AN8", JSValue.vstr "4242")] "F0115" "AN8"
    (JSValue.vstr "4242") (by decide) (by decide) (by decide)

/-- C7 counterexample: the `enrichRow` helper of `vendorsMaster.ts` keys the
enriched row by the composite key `"<table>_<field>"`, so the key
`F0101_AN8` of the enriched row is not present verbatim among the keys of the
raw row `{AN8: "4242"}`. -/
theorem c7_counterexample :
    (enrichRow [("AN8", JSValue.vstr "4242")] [] "F0101").map Prod.fst = ["F0101_AN8"] ∧
    "F0101_AN8" ∉ ([("AN8", JSValue.vstr "4242")] : RawRow).map Prod.fst := by
  constructor
  · rfl
  · decide

/-- C7 amended: the enrichment loop of the per-table fetch modules and of
`buildVendorsJson` (`enrichRecord`) keeps every field key verbatim, so each
key of its output occurs among the keys of the raw row; the `enrichRow`
helper of `vendorsMaster.ts` instead prefixes each key with the table name,
so each of its output keys is `"<table>_<field>"` for some field key of the
raw row. -/
theorem c7_keys_amended (fieldDetails : FieldDict) (record : RawRow) (tableName : String) :
    (∀ key ∈ (enrichRecord fieldDetails record).map Prod.fst,
        key ∈ record.map Prod.fst) ∧
    (∀ key ∈ (enrichRow record fieldDetails tableName).map Prod.fst,
        ∃ f ∈ record.map Prod.fst, key = tableName ++ "_" ++ f) :=
  ⟨enrichRecord_keys_subset fieldDetails record,
   enrichRow_keys fieldDetails record tableName⟩

theorem c7_keys_amended_witness :
    "AN8" ∈ ([("AN8", JSValue.vstr "4242")] : RawRow).map Prod.fst :=
  (c7_keys_amended [] [("AN8", JSValue.vstr "4242")] "F0101").1 "AN8" (by decide)

theorem fallbackChildReq_ne_primaryChildReq (table addressNumber : String) :
    fallbackChildReq table addressNumber ≠ primaryChildReq table addressNumber := by
  intro h
  have hf : (fallbackChildReq table addressNumber).filter =
      (primaryChildReq table addressNumber).filter := by rw [h]
  have hd := congrArg (fun s => s.data.length) hf
  simp only [fallbackChildReq, primaryChildReq, String.data_append,
    List.length_append, List.length_cons, List.length_nil] at hd
  omega

/-- C3 counterexample: in the source the inner try also awaits the
field-dictionary load after a successful query (`mailingAddress.ts` lines
302-303 call `loadF0116FieldDetails`, which rejects when `F0116.xlsx` is
absent), so the inner catch fires and the table-qualified fallback query is
issued even though the primary query succeeded.  Concretely: with every
query succeeding with one row and the F0116 metadata file absent, the
request trace of the fetch contains the fallback request. -/
theorem c3_counterexample :
    envOkOneRow (primaryChildReq "F0116" "4242") =
      QueryResult.ok [[("AN8", JSValue.vstr "4242")]] ∧
    (fetchTableFull envOkOneRow (loadF0116FieldDetails none) "F0116" "4242").2 =
      [primaryChildReq "F0116" "4242", fallbackChildReq "F0116" "4242"] ∧
    fallbackChildReq "F0116" "4242" ∈
      (fetchTableFull envOkOneRow (loadF0116FieldDetails none) "F0116" "4242").2 :=
  ⟨rfl, rfl, by decide⟩

/-- C3 amended: whenever the first query with the bare filter
`"AN8 EQ <key>"` succeeds and the field-dictionary load for the table
succeeds as well (so the whole inner try completes), the child-table fetcher
issues exactly that one request; in particular the table-qualified fallback
request is never issued.  A failing dictionary load, by contrast, reaches
the inner catch and issues the fallback query even after a successful
primary query. -/
theorem c3_fallback_amended (env : Env) (dictLoad : Except String FieldDict)
    (table addressNumber : String) (rows : List RawRow) (fieldDetails : FieldDict)
    (h : env (primaryChildReq table addressNumber) = .ok rows)
    (hd : dictLoad = .ok fieldDetails) :
    (fetchTableFull env dictLoad table addressNumber).2 =
      [primaryChildReq table addressNumber] ∧
    fallbackChildReq table addressNumber ∉
      (fetchTableFull env dictLoad table addressNumber).2 := by
  have h2 : (fetchTableFull env dictLoad table addressNumber).2 =
      [primaryChildReq table addressNumber] := by
    unfold fetchTableFull fetchTableAttemptFull
    rw [h, hd]
  refine ⟨h2, ?_⟩
  rw [h2]
  simp only [List.mem_singleton]
  exact fallbackChildReq_ne_primaryChildReq table addressNumber

theorem c3_fallback_amended_witness :
    (fetchTableFull envOkEmpty (Except.ok ([] : FieldDict)) "F0115" "4242").2 =
      [primaryChildReq "F0115" "4242"] ∧
    fallbackChildReq "F0115" "4242" ∉
      (fetchTableFull envOkEmpty (Except.ok ([] : FieldDict)) "F0115" "4242").2 :=
  c3_fallback_amended envOkEmpty (Except.ok ([] : FieldDict)) "F0115" "4242" [] [] rfl rfl

/-- C4: when both the bare-filter attempt and the table-qualified fallback
attempt fail, the child-table fetcher returns the empty result (empty raw and
enhanced sequences) after issuing exactly the two requests, and no error
reaches its caller; consequently `buildVendorsJson` still completes with an
output whenever its own primary fetch succeeds. -/
theorem c4_double_failure_absorbed (env : Env) (fieldDetails : FieldDict)
    (table addressNumber m1 m2 : String)
    (h1 : env (primaryChildReq table addressNumber) = .err m1)
    (h2 : env (fallbackChildReq table addressNumber) = .err m2)
    (f0101Fields f0111Fields f0115Fields f0116Fields : FieldDict) :
    fetchTableTrace env fieldDetails table addressNumber =
      (⟨[], []⟩,
       [primaryChildReq table addressNumber, fallbackChildReq table addressNumber]) ∧
    (∀ rows, env primaryVendorReq = QueryResult.ok rows →
      ∃ out, (buildVendorsJson env f0101Fields f0111Fields f0115Fields f0116Fields).1 =
        Except.ok out) := by
  constructor
  · unfold fetchTableTrace fetchTableAttempts
    rw [h1, h2]
  · intro rows hok
    unfold buildVendorsJson
    rw [hok]
    exact ⟨_, rfl⟩

theorem c4_double_failure_absorbed_witness :
    fetchTableTrace envAllErr [] "F0115" "4242" =
      (⟨[], []⟩, [primaryChildReq "F0115" "4242", fallbackChildReq "F0115" "4242"]) :=
  (c4_double_failure_absorbed envAllErr [] "F0115" "4242" "service unavailable"
    "service unavailable" rfl rfl [] [] [] []).1

/-- C10: every child-table fetch returns an enhanced collection that is
exactly the raw collection mapped through the enrichment loop, so the two
have equal length and matching order, and each retained field of each row
keeps its raw value unchanged in the enriched record. -/
theorem c10_enhanced_mirrors_raw (env : Env) (fieldDetails : FieldDict)
    (table addressNumber : String) :
    ((fetchTableTrace env fieldDetails table addressNumber).1.enhanced =
      (fetchTableTrace env fieldDetails table addressNumber).1.raw.map
        (enrichRecord fieldDetails)) ∧
    ((fetchTableTrace env fieldDetails table addressNumber).1.enhanced.length =
      (fetchTableTrace env fieldDetails table addressNumber).1.raw.length) ∧
    (∀ row ∈ (fetchTableTrace env fieldDetails table addressNumber).1.raw,
      (row.map Prod.fst).Nodup →
      ∀ f v, getProp row f = some v → omitValue v = false →
        getProp (enrichRecord fieldDetails row) f = some ⟨v, getProp fieldDetails f⟩) := by
  have hmap : (fetchTableTrace env fieldDetails table addressNumber).1.enhanced =
      (fetchTableTrace env fieldDetails table addressNumber).1.raw.map
        (enrichRecord fieldDetails) := by
    cases hfa : fetchTableAttempts env table addressNumber with
    | mk res reqs =>
      cases res with
      | ok rows => simp [fetchTableTrace, hfa]
      | error m => simp [fetchTableTrace, hfa]
  refine ⟨hmap, ?_, ?_⟩
  · rw [hmap, List.length_map]
  · intro row _ hnd f v hv hret
    rw [getProp_enrichRecord fieldDetails row f v hnd hv, hret]
    simp

theorem c10_enhanced_mirrors_raw_witness :
    getProp (enrichRecord [] [("AN8", JSValue.vstr "4242")]) "AN8" =
      some ⟨JSValue.vstr "4242", getProp ([] : FieldDict) "AN8"⟩ :=
  (c10_enhanced_mirrors_raw envOkOneRow [] "F0115" "4242").2.2
    [("AN8", JSValue.vstr "4242")] (by decide) (by decide)
    "AN8" (JSValue.vstr "4242") (by decide) (by decide)

theorem processVendor_invalid (env : Env)
    (f0101Fields f0111Fields f0115Fields f0116Fields : FieldDict) (vendor : RawRow)
    (h : invalidParentKey (parentKeyOf vendor) = true) :
    processVendor env f0101Fields f0111Fields f0115Fields f0116Fields vendor =
      ([], [], []) := by
  unfold processVendor
  simp [h]

theorem processVendor_valid (env : Env)
    (f0101Fields f0111Fields f0115Fields f0116Fields : FieldDict) (vendor : RawRow)
    (h : invalidParentKey (parentKeyOf vendor) = false) :
    processVendor env f0101Fields f0111Fields f0115Fields f0116Fields vendor =
      ([⟨parentKeyOf vendor, vendor,
         (getContactInfoRecords env f0111Fields (parentKeyOf vendor)).1.raw,
         (getAddressBookRecords env f0115Fields (parentKeyOf vendor)).1.raw,
         (getMailingAddressRecords env f0116Fields (parentKeyOf vendor)).1.raw⟩],
       [⟨parentKeyOf vendor, enrichRecord f0101Fields vendor,
         (getContactInfoRecords env f0111Fields (parentKeyOf vendor)).1.enhanced,
         (getAddressBookRecords env f0115Fields (parentKeyOf vendor)).1.enhanced,
         (getMailingAddressRecords env f0116Fields (parentKeyOf vendor)).1.enhanced⟩],
       (getContactInfoRecords env f0111Fields (parentKeyOf vendor)).2 ++
         (getAddressBookRecords env f0115Fields (parentKeyOf vendor)).2 ++
         (getMailingAddressRecords env f0116Fields (parentKeyOf vendor)).2) := by
  unfold processVendor
  simp [h]

theorem buildVendorsJson_ok (env : Env)
    (f0101Fields f0111Fields f0115Fields f0116Fields : FieldDict) (rows : List RawRow)
    (h : env primaryVendorReq = .ok rows) :
    buildVendorsJson env f0101Fields f0111Fields f0115Fields f0116Fields =
      (.ok ⟨(rows.map (processVendor env f0101Fields f0111Fields f0115Fields
              f0116Fields)).flatMap (fun c => c.1),
            (rows.map (processVendor env f0101Fields f0111Fields f0115Fields
              f0116Fields)).flatMap (fun c => c.2.1)⟩,
       primaryVendorReq ::
         (rows.map (processVendor env f0101Fields f0111Fields f0115Fields
           f0116Fields)).flatMap (fun c => c.2.2)) := by
  unfold buildVendorsJson
  rw [h]

/-- C5: given that the primary F0101 fetch succeeded, any vendor row whose
coerced address number is empty, `"undefined"` or `"null"` contributes
nothing to the batch: its loop body yields no raw entry, no enhanced entry
and no request; no output entry carries that row (or its address number);
and every non-primary request the run issues belongs to some vendor with a
valid — hence different — address number. -/
theorem c5_skip_invalid_parent (env : Env)
    (f0101Fields f0111Fields f0115Fields f0116Fields : FieldDict)
    (rows : List RawRow) (vendor : RawRow)
    (hok : env primaryVendorReq = .ok rows) (hmem : vendor ∈ rows)
    (hinv : invalidParentKey (parentKeyOf vendor) = true) :
    processVendor env f0101Fields f0111Fields f0115Fields f0116Fields vendor =
      ([], [], []) ∧
    (∀ bo, (buildVendorsJson env f0101Fields f0111Fields f0115Fields f0116Fields).1 =
        .ok bo →
      (∀ e ∈ bo.vendorsRaw, e.vendor ≠ vendor) ∧
      (∀ e ∈ bo.vendorsEnhanced, e.addressNumber ≠ parentKeyOf vendor)) ∧
    (∀ req ∈ (buildVendorsJson env f0101Fields f0111Fields f0115Fields f0116Fields).2,
      req = primaryVendorReq ∨
        ∃ pk, invalidParentKey pk = false ∧ pk ≠ parentKeyOf vendor ∧
          (req ∈ (getContactInfoRecords env f0111Fields pk).2 ∨
           req ∈ (getAddressBookRecords env f0115Fields pk).2 ∨
           req ∈ (getMailingAddressRecords env f0116Fields pk).2)) := by
  have hbuild := buildVendorsJson_ok env f0101Fields f0111Fields f0115Fields f0116Fields
    rows hok
  refine ⟨processVendor_invalid env f0101Fields f0111Fields f0115Fields f0116Fields
    vendor hinv, ?_, ?_⟩
  · intro bo hbo
    rw [hbuild] at hbo
    simp only [Except.ok.injEq] at hbo
    subst hbo
    constructor
    · intro e he
      simp only [List.mem_flatMap, List.mem_map] at he
      obtain ⟨c, ⟨r, hr, hc⟩, hec⟩ := he
      subst hc
      by_cases hrv : invalidParentKey (parentKeyOf r) = true
      · rw [processVendor_invalid env _ _ _ _ r hrv] at hec
        cases hec
      · rw [processVendor_valid env _ _ _ _ r (by simpa using hrv)] at hec
        rw [List.mem_singleton] at hec
        subst hec
        intro hcontra
        change r = vendor at hcontra
        rw [hcontra] at hrv
        exact hrv hinv
    · intro e he
      simp only [List.mem_flatMap, List.mem_map] at he
      obtain ⟨c, ⟨r, hr, hc⟩, hec⟩ := he
      subst hc
      by_cases hrv : invalidParentKey (parentKeyOf r) = true
      · rw [processVendor_invalid env _ _ _ _ r hrv] at hec
        cases hec
      · rw [processVendor_valid env _ _ _ _ r (by simpa using hrv)] at hec
        rw [List.mem_singleton] at hec
        subst hec
        intro hcontra
        change parentKeyOf r = parentKeyOf vendor at hcontra
        rw [hcontra] at hrv
        exact hrv hinv
  · intro req hreq
    rw [hbuild] at hreq
    rcases List.mem_cons.mp hreq with hreq | hreq
    · exact Or.inl hreq
    · simp only [List.mem_flatMap, List.mem_map] at hreq
      obtain ⟨c, ⟨r, hr, hc⟩, hrc⟩ := hreq
      subst hc
      by_cases hrv : invalidParentKey (parentKeyOf r) = true
      · rw [processVendor_invalid env _ _ _ _ r hrv] at hrc
        cases hrc
      · have hvalid : invalidParentKey (parentKeyOf r) = false := by simpa using hrv
        rw [processVendor_valid env _ _ _ _ r hvalid] at hrc
        refine Or.inr ⟨parentKeyOf r, hvalid, ?_, ?_⟩
        · intro hcontra
          rw [hcontra] at hvalid
          rw [hinv] at hvalid
          cases hvalid
        · simp only [List.mem_append] at hrc
          rcases hrc with (hrc | hrc) | hrc
          · exact Or.inl hrc
          · exact Or.inr (Or.inl hrc)
          · exact Or.inr (Or.inr hrc)

theorem c5_skip_invalid_parent_witness :
    processVendor envOkInvalidVendor [] [] [] [] [("F0101_AN8", JSValue.vstr "")] =
      ([], [], []) :=
  (c5_skip_invalid_parent envOkInvalidVendor [] [] [] []
    [[("F0101_AN8", JSValue.vstr "")]] [("F0101_AN8", JSValue.vstr "")]
    rfl (by decide) (by decide)).1

/-- C8 counterexample: the primary F0101 request of `buildVendorsJson` is
issued with `$limit = '5'`, not `'10'`, so not every data-service request of
a run carries `$limit = '10'`. -/
theorem c8_counterexample :
    (buildVendorsJson envAllErr [] [] [] []).2 = [primaryVendorReq] ∧
    primaryVendorReq.limit = "5" :=
  ⟨rfl, rfl⟩

theorem mem_fetchTableTrace_limit (env : Env) (fieldDetails : FieldDict)
    (table addressNumber : String) (req : QueryRequest)
    (h : req ∈ (fetchTableTrace env fieldDetails table addressNumber).2) :
    req.limit = "10" := by
  unfold fetchTableTrace fetchTableAttempts at h
  cases henv : env (primaryChildReq table addressNumber) with
  | ok rows =>
      rw [henv] at h
      simp only [List.mem_singleton] at h
      rw [h]
      rfl
  | err m =>
      rw [henv] at h
      cases henv2 : env (fallbackChildReq table addressNumber) with
      | ok rows =>
          rw [henv2] at h
          simp only [List.mem_cons, List.mem_singleton, List.not_mem_nil, or_false] at h
          rcases h with h | h <;> (rw [h]; rfl)
      | err m2 =>
          rw [henv2] at h
          simp only [List.mem_cons, List.mem_singleton, List.not_mem_nil, or_false] at h
          rcases h with h | h <;> (rw [h]; rfl)

/-- C8 amended: every data-service request issued by a run is either the
primary F0101 vendor query, which uses `$limit = '5'`, or a child-table
query, which uses `$limit = '10'`; so every request asks for at most 10
rows, but the `$limit` parameter is not `'10'` on every request. -/
theorem c8_limits_amended (env : Env)
    (f0101Fields f0111Fields f0115Fields f0116Fields : FieldDict) (req : QueryRequest)
    (hreq : req ∈ (buildVendorsJson env f0101Fields f0111Fields f0115Fields f0116Fields).2) :
    (req = primaryVendorReq ∧ req.limit = "5") ∨ req.limit = "10" := by
  cases hok : env primaryVendorReq with
  | err m =>
      unfold buildVendorsJson at hreq
      rw [hok] at hreq
      simp only [List.mem_singleton] at hreq
      exact Or.inl ⟨hreq, by rw [hreq]; rfl⟩
  | ok rows =>
      rw [buildVendorsJson_ok env f0101Fields f0111Fields f0115Fields f0116Fields
        rows hok] at hreq
      rcases List.mem_cons.mp hreq with h | h
      · exact Or.inl ⟨h, by rw [h]; rfl⟩
      · simp only [List.mem_flatMap, List.mem_map] at h
        obtain ⟨c, ⟨r, hr, hc⟩, hrc⟩ := h
        subst hc
        by_cases hrv : invalidParentKey (parentKeyOf r) = true
        · rw [processVendor_invalid env _ _ _ _ r hrv] at hrc
          cases hrc
        · rw [processVendor_valid env _ _ _ _ r (by simpa using hrv)] at hrc
          simp only [List.mem_append] at hrc
          rcases hrc with (hrc | hrc) | hrc
          · exact Or.inr (mem_fetchTableTrace_limit env _ _ _ req hrc)
          · exact Or.inr (mem_fetchTableTrace_limit env _ _ _ req hrc)
          · exact Or.inr (mem_fetchTableTrace_limit env _ _ _ req hrc)

theorem c8_limits_amended_witness :
    (primaryVendorReq = primaryVendorReq ∧ primaryVendorReq.limit = "5") ∨
      primaryVendorReq.limit = "10" :=
  c8_limits_amended envAllErr [] [] [] [] primaryVendorReq (by decide)

/-- C9 counterexample: with a validated connection and a failing primary
F0101 fetch, `main` logs a single terminal error message and writes no batch
file, but the catch block in `main` absorbs the error, so the process exits
with code 0 rather than a non-zero exit signal. -/
theorem c9_counterexample :
    (mainRun true envAllErr [] [] [] []).exitCode = 0 ∧
    (mainRun true envAllErr [] [] [] []).errorMessages =
      ["Error during batch vendor sync: service unavailable"] ∧
    (mainRun true envAllErr [] [] [] []).filesWritten = [] :=
  ⟨rfl, rfl, rfl⟩

/-- C9 amended: if the primary-table fetch fails, no partial batch output is
produced (no file is written) and a single terminal error message reports
the failure, but the process exit code is 0: the catch block in `main` logs
the error instead of propagating it, so the non-zero exit path is never
taken for a batch failure. -/
theorem c9_primary_failure_amended (env : Env)
    (f0101Fields f0111Fields f0115Fields f0116Fields : FieldDict) (m : String)
    (h : (buildVendorsJson env f0101Fields f0111Fields f0115Fields f0116Fields).1 =
      .error m) :
    mainRun true env f0101Fields f0111Fields f0115Fields f0116Fields =
      ⟨0, ["Error during batch vendor sync: " ++ m], []⟩ := by
  unfold mainRun
  rw [h]
  rfl

theorem c9_primary_failure_amended_witness :
    mainRun true envAllErr [] [] [] [] =
      ⟨0, ["Error during batch vendor sync: " ++ "service unavailable"], []⟩ :=
  c9_primary_failure_amended envAllErr [] [] [] [] "service unavailable" rfl

/-- C6 counterexample: `loadF0116FieldDetails` reads its workbook with no
existence check, so an absent metadata file makes the load fail with the
read error instead of returning an empty mapping. -/
theorem c6_counterexample :
    loadF0116FieldDetails none = Except.error "ENOENT" :=
  rfl

/-- C6 amended: of the three field-dictionary loaders, the F01151 and F0111
loaders guard with an existence check and return an empty mapping when the
backing metadata file is absent, but the F0116 loader does not: it
propagates the file-read error. -/
theorem c6_loaders_amended :
    loadF01151FieldDetails none = Except.ok ([] : FieldDict) ∧
    loadF0111FieldDetails none = Except.ok ([] : FieldDict) ∧
    loadF0116FieldDetails none = Except.error "ENOENT" :=
  ⟨rfl, rfl, rfl⟩

end JdeSync
